import Mathlib

set_option maxHeartbeats 1000000

/-!
Shallow embedding of lib/api/apiUtils/object/versioning.js: the versioning
state engine of the cloudserver object-write and object-delete paths.

Modelling conventions:
- A JS value that may be `undefined` is an `Option`; a field absent on a JS
  object and a field present with value `undefined` are both `none`.
- JS truthiness of an optional string (upload ids, version ids in request
  queries) is `jsTruthy`: `undefined` and the empty string are falsy.
- Data locations are opaque descriptor objects (a JS object is always
  truthy), so presence of the `location` field is `Option.isSome`.
- The metadata store is an external collaborator: its outcomes for the (at
  most one) put, get and delete performed by `versioningPreprocessing` are
  supplied explicitly in an `MDEnv` oracle.
-/

/-- Opaque reference to one stored data block (a location descriptor object;
objects are always truthy in JS). -/
structure Loc where
  id : Nat
  deriving Repr, DecidableEq

/-- A JS `location` value as stored in object metadata: either a single
location descriptor or an array of them. -/
inductive JsLocation where
  | single (l : Loc)
  | arr (ls : List Loc)
  deriving Repr, DecidableEq

/-- JS `Array.isArray(l) ? l : [l]` normalization of a location value. -/
def normLocation : JsLocation → List Loc
  | .single l => [l]
  | .arr ls => ls

/-- JS truthiness of an optional string: `undefined` and `""` are falsy. -/
def jsTruthy : Option String → Bool
  | none => false
  | some s => s != ""

/-- The error kinds of the arsenal error set that this module produces or
inspects, plus an opaque family for other metadata-store failures. -/
inductive ApiError where
  | NoSuchKey
  | InternalError
  | InvalidArgument (msg : String)
  | OtherMD (code : Nat)
  deriving Repr, DecidableEq

/-- The arsenal check `err.is.NoSuchKey`. -/
def ApiError.isNoSuchKey : ApiError → Bool
  | .NoSuchKey => true
  | _ => false

/-- Opaque archive information blob. -/
structure ArchiveInfo where
  tag : Nat
  deriving Repr, DecidableEq

/-- The `archive` sub-record of object metadata; timestamps are
milliseconds since the epoch. -/
structure Archive where
  archiveInfo : Option ArchiveInfo := none
  restoreRequestedAt : Option Nat := none
  restoreRequestedDays : Option Nat := none
  deriving Repr, DecidableEq

/-- An object metadata record (the fields of the JSON record that
versioning.js reads; `creationTime` and `lastModified` stand for the JSON
keys `creation-time` and `last-modified`). -/
structure ObjMD where
  versionId : Option String := none
  uploadId : Option String := none
  isNull : Bool := false
  nullVersionId : Option String := none
  nullUploadId : Option String := none
  location : Option JsLocation := none
  creationTime : Option String := none
  lastModified : Option String := none
  archive : Option Archive := none
  deriving Repr, DecidableEq

/-- State of the master version as built by `getMasterState` (the JS field
`exists` is `exists_` here because `exists` is reserved in Lean). -/
structure MasterState where
  exists_ : Bool := false
  versionId : Option String := none
  uploadId : Option String := none
  isNull : Bool := false
  nullVersionId : Option String := none
  nullUploadId : Option String := none
  objLocation : Option (List Loc) := none
  deriving Repr, DecidableEq

/-- getMasterState - build the state of the master version from its object
metadata; with no metadata it returns the empty object (all fields
undefined). -/
def getMasterState : Option ObjMD → MasterState
  | none => {}
  | some objMD =>
      { exists_ := true
        versionId := objMD.versionId
        uploadId := objMD.uploadId
        isNull := objMD.isNull
        nullVersionId := objMD.nullVersionId
        nullUploadId := objMD.nullUploadId
        objLocation := objMD.location.map normLocation }

/-- Versioning-related options passed to the metadata-store-object call. -/
structure Options where
  versionId : Option String := none
  isNull : Option Bool := none
  dataToDelete : Option (List Loc) := none
  versioning : Option Bool := none
  nullVersionId : Option String := none
  nullUploadId : Option String := none
  deriving Repr, DecidableEq

/-- Options for metadata to create a new null version key. -/
structure StoreOptions where
  versionId : Option String := none
  isNull : Option Bool := none
  deriving Repr, DecidableEq

/-- Options for metadata to delete the null version key. -/
structure DelOptions where
  versionId : Option String := none
  replayId : Option String := none
  deriving Repr, DecidableEq

/-- Result of `processVersioningState`: `options` always, `storeOptions`
and `delOptions` only when the corresponding branch returns them. -/
structure PVSResult where
  options : Options
  storeOptions : Option StoreOptions := none
  delOptions : Option DelOptions := none
  deriving Repr, DecidableEq

/-- Modelled from the spec: the reserved sentinel version identifier for
null versions created before bucket versioning was configured. In the
source it is `versionIdUtils.getInfVid(config.replicationGroupId)`, a
deterministic constant supplied by the external version-identifier codec
(the arsenal library, outside this repository); the claims treat it as an
opaque identifier, so it is an abstract constant here. -/
def nonVersionedObjId : String := "9999999999999999999999.RG001"

/-- processVersioningState - process state from the master version of an
object and the bucket versioning status, returning the decision bundle. -/
def processVersioningState (mst : MasterState) (vstat : String) : PVSResult :=
  -- object does not exist or is not versioned (before versioning)
  if mst.versionId = none ∨ mst.isNull then
    -- versioning is suspended, overwrite existing master version
    if vstat = "Suspended" then
      let options : Options :=
        { versionId := some ""
          isNull := some true
          dataToDelete := mst.objLocation }
      -- if null version exists, clean it up prior to put
      if mst.isNull then
        let delOptions : DelOptions :=
          { versionId := mst.versionId
            replayId := if jsTruthy mst.uploadId then mst.uploadId else none }
        { options := options, delOptions := some delOptions }
      else
        { options := options }
    else
      -- versioning is enabled, create a new version
      if mst.exists_ then
        -- store master version in a new key
        let versionId : Option String :=
          if mst.isNull then mst.versionId else some nonVersionedObjId
        let storeOptions : StoreOptions :=
          { versionId := versionId, isNull := some true }
        -- non-versioned (non-null) MPU objects have no replay id, so the
        -- uploadId is only referenced when the master is a null version
        let options : Options :=
          { versioning := some true
            nullVersionId := versionId
            nullUploadId :=
              if mst.isNull && jsTruthy mst.uploadId then mst.uploadId
              else none }
        { options := options, storeOptions := some storeOptions }
      else
        { options := { versioning := some true } }
  else
    -- master is versioned and is not a null version
    let nullVersionId := mst.nullVersionId
    if vstat = "Suspended" then
      -- versioning is suspended, overwrite the existing master version
      let options : Options := { versionId := some "", isNull := some true }
      if nullVersionId = none then
        { options := options }
      else
        let delOptions : DelOptions :=
          { versionId := nullVersionId
            replayId :=
              if jsTruthy mst.nullUploadId then mst.nullUploadId else none }
        { options := options, delOptions := some delOptions }
    else
      -- versioning is enabled, put the new version
      { options :=
          { versioning := some true
            nullVersionId := nullVersionId
            nullUploadId :=
              if jsTruthy mst.nullUploadId then mst.nullUploadId
              else none } }

/-- The metadata record read back for a specific version id; only its
`location` field is inspected by this module. -/
structure VersionMD where
  location : Option JsLocation := none
  deriving Repr, DecidableEq

/-- Oracle for the outcomes of the at most one put, one get and one delete
that `versioningPreprocessing` performs against the external metadata
store (`none` outcome of put or delete means success). -/
structure MDEnv where
  putResult : Option ApiError := none
  getResult : Except ApiError VersionMD := Except.ok {}
  delResult : Option ApiError := none

/-- getNullVersionsToDelete - get location of null version data for
deletion: when the requested version id equals the version id of the
master, the already-known master location is reused without reading the
metadata store; otherwise the record of that version is read and its
location normalized (a record without location yields no data and no
error). -/
def getNullVersionsToDelete (getResult : Except ApiError VersionMD)
    (options : DelOptions) (mst : MasterState) :
    Except ApiError (Option (List Loc)) :=
  if options.versionId = mst.versionId then
    -- no need to get delete location, we already have the master metadata
    Except.ok mst.objLocation
  else
    match getResult with
    | .error e => .error e
    | .ok versionMD =>
        match versionMD.location with
        | none => .ok none
        | some l => .ok (some (normLocation l))

/-- deleteNullVersionMD - resolve the data of the null version, then delete
its metadata record; returns the data to delete on success. -/
def deleteNullVersionMD (getResult : Except ApiError VersionMD)
    (delResult : Option ApiError) (options : DelOptions)
    (mst : MasterState) : Except ApiError (Option (List Loc)) :=
  match getNullVersionsToDelete getResult options mst with
  | .error e => .error e
  | .ok nullDataToDelete =>
      match delResult with
      | some e => .error e
      | none => .ok nullDataToDelete

/-- versioningPreprocessing - compute the versioning decision bundle and
execute its side effects in order: the protective store of the retiring
null version first (failure propagates, nothing further attempted), then
the deletion of the superseded null version (a NoSuchKey failure is
absorbed, any other failure escalates to InternalError, success overwrites
`dataToDelete` with the reclaimed locations). The bucket versioning
configuration is `vCfg`: `none` when the bucket is not versioning
configured, otherwise its `Status` string. -/
def versioningPreprocessing (env : MDEnv) (vCfg : Option String)
    (objMD : Option ObjMD) : Except ApiError Options :=
  let mst := getMasterState objMD
  match vCfg with
  | none =>
      -- bucket is not versioning configured
      .ok { dataToDelete := mst.objLocation }
  | some status =>
      -- bucket is versioning configured
      let r := processVersioningState mst status
      -- storeVersion step (storeNullVersionMD consults the put outcome)
      match (match r.storeOptions with
             | none => none
             | some _ => env.putResult : Option ApiError) with
      | some e => .error e
      | none =>
          -- deleteNullVersion step
          match r.delOptions with
          | none => .ok r.options
          | some delOptions =>
              match deleteNullVersionMD env.getResult env.delResult
                  delOptions mst with
              | .error e =>
                  -- a concurrent request may have deleted the null version
                  if e.isNoSuchKey then .ok r.options
                  else .error ApiError.InternalError
              | .ok nullDataToDelete =>
                  .ok { r.options with dataToDelete := nullDataToDelete }

/-- Options returned by `preprocessingVersioningDelete`. -/
structure DeleteOptions where
  deleteData : Option Bool := none
  versionId : Option String := none
  isNull : Option Bool := none
  replayId : Option String := none
  deriving Repr, DecidableEq

/-- preprocessingVersioningDelete - return versioning information for the
deletion of objects and versions, including creation of delete markers. -/
def preprocessingVersioningDelete (vCfg : Option String) (objectMD : ObjMD)
    (reqVersionId : Option String) : Except ApiError DeleteOptions :=
  -- bucket is not versioning enabled
  if vCfg = none then
    .ok { deleteData := some true }
  -- bucket is versioning enabled
  else if jsTruthy reqVersionId && (reqVersionId != some "null") then
    -- deleting a specific version
    .ok { deleteData := some true
          versionId := reqVersionId
          replayId :=
            if jsTruthy objectMD.uploadId then objectMD.uploadId else none }
  else if jsTruthy reqVersionId then
    -- deleting the null version if it exists
    if objectMD.versionId = none then
      -- object is not versioned, deleting it
      .ok { deleteData := some true }
    else if objectMD.isNull then
      -- master is the null version
      .ok { deleteData := some true
            versionId := objectMD.versionId
            isNull := some true
            replayId :=
              if jsTruthy objectMD.uploadId then objectMD.uploadId
              else none }
    else if jsTruthy objectMD.nullVersionId then
      -- null version exists, deleting it
      .ok { deleteData := some true
            versionId := objectMD.nullVersionId
            replayId :=
              if jsTruthy objectMD.nullUploadId then objectMD.nullUploadId
              else none }
    else
      -- null version does not exist, no deletion
      .error ApiError.NoSuchKey
  else
    -- not deleting any specific version, making a delete marker instead
    .ok {}

/-- One day in milliseconds. -/
def oneDay : Nat := 24 * 60 * 60 * 1000

/-- The archive sub-record written by `overwritingVersioning`;
`restoreWillExpireAt` is `none` when `restoreRequestedDays` was absent (in
JS the arithmetic on `undefined` yields an invalid date). -/
structure ArchiveParams where
  archiveInfo : Option ArchiveInfo := none
  restoreRequestedAt : Option Nat := none
  restoreRequestedDays : Option Nat := none
  restoreCompletedAt : Nat := 0
  restoreWillExpireAt : Option Nat := none
  deriving Repr, DecidableEq

/-- The caller-supplied write parameters mutated by
`overwritingVersioning` (only the fields it touches). -/
structure MetadataStoreParams where
  creationTime : Option String := none
  lastModifiedDate : Option String := none
  updateMicroVersionId : Option Bool := none
  archive : Option ArchiveParams := none
  deriving Repr, DecidableEq

/-- Options returned by `overwritingVersioning`. -/
structure OverwriteOptions where
  versionId : Option String := none
  isNull : Bool := false
  nullVersionId : Option String := none
  deriving Repr, DecidableEq

/-- overwritingVersioning - versioning information for storing version
metadata with a specific version id (restore-from-archive overwrite);
`now` is the current wall-clock time in milliseconds. Returns the updated
write parameters together with the options object. -/
def overwritingVersioning (now : Nat) (objMD : ObjMD)
    (metadataStoreParams : MetadataStoreParams) :
    MetadataStoreParams × OverwriteOptions :=
  let days := objMD.archive.bind (·.restoreRequestedDays)
  let params : MetadataStoreParams :=
    { metadataStoreParams with
        creationTime := objMD.creationTime
        lastModifiedDate := objMD.lastModified
        updateMicroVersionId := some true
        archive := some
          { archiveInfo := objMD.archive.bind (·.archiveInfo)
            restoreRequestedAt := objMD.archive.bind (·.restoreRequestedAt)
            restoreRequestedDays := days
            restoreCompletedAt := now
            restoreWillExpireAt := days.map (fun d => now + d * oneDay) } }
  let versionId : Option String :=
    if jsTruthy objMD.versionId then objMD.versionId else none
  (params,
   { versionId := versionId
     isNull := objMD.isNull
     nullVersionId := objMD.nullVersionId })

/-- decodeVID - decode a version id string: the literal string null is
returned unchanged; otherwise the external codec is consulted (modelled as
the function argument `decode`, whose error covers both a thrown exception
and a returned Error instance) and a codec failure becomes an
InvalidArgument error. -/
def decodeVID (decode : String → Except Unit String) (versionId : String) :
    Except ApiError String :=
  if versionId = "null" then
    .ok versionId
  else
    match decode versionId with
    | .error _ => .error (.InvalidArgument "Invalid version id specified")
    | .ok decoded => .ok decoded

/-- A request query object; only its `versionId` entry is used. -/
structure ReqQuery where
  versionId : Option String := none
  deriving Repr, DecidableEq

/-- decodeVersionId - decode the version id from a request query object; a
missing query or a falsy versionId entry yields undefined. -/
def decodeVersionId (decode : String → Except Unit String)
    (reqQuery : Option ReqQuery) : Except ApiError (Option String) :=
  match reqQuery with
  | none => .ok none
  | some q =>
      if jsTruthy q.versionId then
        match q.versionId with
        | none => .ok none
        | some v => (decodeVID decode v).map some
      else
        .ok none


theorem pvs_store_del_exclusive (mst : MasterState) (vstat : String) :
    (processVersioningState mst vstat).storeOptions = none ∨
    (processVersioningState mst vstat).delOptions = none := by
  unfold processVersioningState
  split_ifs <;> simp [apply_ite]

theorem pvs_dataToDelete_of_delOptions (mst : MasterState) (vstat : String)
    (d : DelOptions)
    (h : (processVersioningState mst vstat).delOptions = some d) :
    (processVersioningState mst vstat).options.dataToDelete = none ∨
    ((processVersioningState mst vstat).options.dataToDelete =
        mst.objLocation ∧ d.versionId = mst.versionId) := by
  unfold processVersioningState at h ⊢
  split_ifs at h ⊢ <;>
    first
      | (simp only [Option.some_inj] at h; subst h; simp [apply_ite])
      | simp_all [apply_ite]

/-- Claim C1: for every master state whose versionId is undefined or whose
isNull flag is set, processVersioningState with bucket status Suspended
returns options with versionId the empty string, isNull true and
dataToDelete the master objLocation; it returns delOptions carrying the
master versionId (with replayId from the master uploadId when that is
present, i.e. truthy) exactly when the master is a null version, and it
never returns storeOptions. -/
theorem claim_C1 (mst : MasterState)
    (h : mst.versionId = none ∨ mst.isNull) :
    (processVersioningState mst "Suspended").options =
      { versionId := some "", isNull := some true,
        dataToDelete := mst.objLocation } ∧
    (processVersioningState mst "Suspended").storeOptions = none ∧
    (processVersioningState mst "Suspended").delOptions =
      (if mst.isNull then
        some { versionId := mst.versionId,
               replayId :=
                 if jsTruthy mst.uploadId then mst.uploadId else none }
       else none) := by
  unfold processVersioningState
  rw [if_pos h]
  by_cases hn : mst.isNull <;> simp [hn]

def mstC1 : MasterState :=
  { exists_ := true, versionId := some "V1", uploadId := some "U1",
    isNull := true, objLocation := some [⟨1⟩] }

/-- Witness for claim C1 at a concrete null master under Suspended. -/
theorem claim_C1_witness :
    (mstC1.versionId = none ∨ mstC1.isNull) ∧
    ((processVersioningState mstC1 "Suspended").options =
      { versionId := some "", isNull := some true,
        dataToDelete := mstC1.objLocation } ∧
     (processVersioningState mstC1 "Suspended").storeOptions = none ∧
     (processVersioningState mstC1 "Suspended").delOptions =
      (if mstC1.isNull then
        some { versionId := mstC1.versionId,
               replayId :=
                 if jsTruthy mstC1.uploadId then mstC1.uploadId else none }
       else none)) :=
  ⟨Or.inr rfl, claim_C1 mstC1 (Or.inr rfl)⟩

/-- Claim C2: for every master state whose versionId is undefined or whose
isNull flag is set, processVersioningState with bucket status Enabled
returns options with versioning true and no delOptions; when the master
exists it returns storeOptions with isNull true and versionId the master
versionId if the master was a null version and the reserved sentinel
otherwise, records that identifier as options.nullVersionId, and sets
options.nullUploadId from the master uploadId only when the master was a
null version; when no master existed, no storeOptions is returned. -/
theorem claim_C2 (mst : MasterState)
    (h : mst.versionId = none ∨ mst.isNull) :
    (processVersioningState mst "Enabled").options.versioning = some true ∧
    (processVersioningState mst "Enabled").delOptions = none ∧
    (mst.exists_ = true →
      (processVersioningState mst "Enabled").storeOptions =
        some { versionId :=
                 if mst.isNull then mst.versionId else some nonVersionedObjId,
               isNull := some true } ∧
      (processVersioningState mst "Enabled").options.nullVersionId =
        (if mst.isNull then mst.versionId else some nonVersionedObjId) ∧
      (processVersioningState mst "Enabled").options.nullUploadId =
        (if mst.isNull && jsTruthy mst.uploadId then mst.uploadId
         else none)) ∧
    (mst.exists_ = false →
      (processVersioningState mst "Enabled").storeOptions = none) := by
  unfold processVersioningState
  rw [if_pos h]
  by_cases he : mst.exists_ <;> simp [he, Bool.and_eq_true]

def mstC2 : MasterState :=
  { exists_ := true, versionId := none, uploadId := some "U2",
    isNull := false, objLocation := some [⟨2⟩] }

/-- Witness for claim C2 at a concrete unversioned existing master under
Enabled. -/
theorem claim_C2_witness :
    (mstC2.versionId = none ∨ mstC2.isNull) ∧ mstC2.exists_ = true ∧
    (processVersioningState mstC2 "Enabled").storeOptions =
      some { versionId := some nonVersionedObjId, isNull := some true } ∧
    (processVersioningState mstC2 "Enabled").options.nullVersionId =
      some nonVersionedObjId := by
  refine ⟨Or.inl rfl, rfl, ?_, ?_⟩
  · have h := ((claim_C2 mstC2 (Or.inl rfl)).2.2.1 rfl).1
    simpa [mstC2] using h
  · have h := ((claim_C2 mstC2 (Or.inl rfl)).2.2.1 rfl).2.1
    simpa [mstC2] using h

/-- Claim C9: for every master state and bucket versioning status, the
result of processVersioningState contains at most one of storeOptions and
delOptions. -/
theorem claim_C9 (mst : MasterState) (vstat : String) :
    (processVersioningState mst vstat).storeOptions = none ∨
    (processVersioningState mst vstat).delOptions = none :=
  pvs_store_del_exclusive mst vstat

/-- Claim C6: for every object record with a defined versionId, isNull
false and no nullVersionId, preprocessingVersioningDelete on a
versioning-configured bucket with requested version id the literal string
null fails with NoSuchKey and produces no delete options. -/
theorem claim_C6 (vstat : String) (objectMD : ObjMD)
    (h1 : objectMD.versionId ≠ none) (h2 : objectMD.isNull = false)
    (h3 : objectMD.nullVersionId = none) :
    preprocessingVersioningDelete (some vstat) objectMD (some "null") =
      .error ApiError.NoSuchKey := by
  unfold preprocessingVersioningDelete
  simp [jsTruthy, h1, h2, h3]

def mdC6 : ObjMD := { versionId := some "V6", isNull := false }

/-- Witness for claim C6 at a concrete plain versioned master. -/
theorem claim_C6_witness :
    (mdC6.versionId ≠ none ∧ mdC6.isNull = false ∧
      mdC6.nullVersionId = none) ∧
    preprocessingVersioningDelete (some "Enabled") mdC6 (some "null") =
      .error ApiError.NoSuchKey :=
  ⟨⟨by simp [mdC6], rfl, rfl⟩,
   claim_C6 "Enabled" mdC6 (by simp [mdC6]) rfl rfl⟩

/-- Claim C7: getMasterState returns the empty state (all fields
undefined) when no record is supplied; otherwise exists is true, the
identifier fields are copied verbatim, and location is normalized into
objLocation: a single location becomes a one-element array, an array
location is kept unchanged, and with no location the objLocation field is
omitted. -/
theorem claim_C7 (objMD : ObjMD) :
    getMasterState none =
      ({ exists_ := false, versionId := none, uploadId := none,
         isNull := false, nullVersionId := none, nullUploadId := none,
         objLocation := none } : MasterState) ∧
    (getMasterState (some objMD)).exists_ = true ∧
    (getMasterState (some objMD)).versionId = objMD.versionId ∧
    (getMasterState (some objMD)).uploadId = objMD.uploadId ∧
    (getMasterState (some objMD)).isNull = objMD.isNull ∧
    (getMasterState (some objMD)).nullVersionId = objMD.nullVersionId ∧
    (getMasterState (some objMD)).nullUploadId = objMD.nullUploadId ∧
    (∀ l, objMD.location = some (JsLocation.single l) →
      (getMasterState (some objMD)).objLocation = some [l]) ∧
    (∀ ls, objMD.location = some (JsLocation.arr ls) →
      (getMasterState (some objMD)).objLocation = some ls) ∧
    (objMD.location = none →
      (getMasterState (some objMD)).objLocation = none) := by
  refine ⟨rfl, rfl, rfl, rfl, rfl, rfl, rfl, ?_, ?_, ?_⟩
  · intro l h
    simp [getMasterState, h, normLocation]
  · intro ls h
    simp [getMasterState, h, normLocation]
  · intro h
    simp [getMasterState, h]

def mdC7 : ObjMD := { versionId := some "V7",
                      location := some (JsLocation.single ⟨7⟩) }

/-- Witness for claim C7 at a concrete record with a single location. -/
theorem claim_C7_witness :
    mdC7.location = some (JsLocation.single ⟨7⟩) ∧
    (getMasterState (some mdC7)).objLocation = some [⟨7⟩] :=
  ⟨rfl, (claim_C7 mdC7).2.2.2.2.2.2.2.1 ⟨7⟩ rfl⟩

/-- Claim C10: decodeVID maps the literal string null to itself for every
codec (so the codec is never consulted and no error is returned), and
decodeVersionId returns undefined, not an error, when the request query is
absent or carries no versionId entry. -/
theorem claim_C10 (decode : String → Except Unit String) (q : ReqQuery)
    (hq : q.versionId = none) :
    decodeVID decode "null" = .ok "null" ∧
    decodeVersionId decode none = .ok none ∧
    decodeVersionId decode (some q) = .ok none := by
  refine ⟨rfl, rfl, ?_⟩
  simp [decodeVersionId, hq, jsTruthy]

/-- Witness for claim C10 at a concrete always-failing codec and the empty
query object. -/
theorem claim_C10_witness :
    ({} : ReqQuery).versionId = none ∧
    decodeVID (fun _ => .error ()) "null" = .ok "null" ∧
    decodeVersionId (fun _ => .error ()) none = .ok none ∧
    decodeVersionId (fun _ => .error ()) (some {}) = .ok none :=
  ⟨rfl, claim_C10 (fun _ => .error ()) {} rfl⟩

/-- Claim C8: for every object record whose archive carries
restoreRequestedDays, overwritingVersioning sets restoreCompletedAt to the
current time and restoreWillExpireAt to exactly that time plus
restoreRequestedDays times 86400000 milliseconds, and returns an options
object consisting of the record versionId, isNull and nullVersionId (the
versionId hypothesis excludes the degenerate empty string, which JS
truthiness would collapse to undefined). -/
theorem claim_C8 (now : Nat) (objMD : ObjMD)
    (params : MetadataStoreParams) (a : Archive) (d : Nat)
    (ha : objMD.archive = some a) (hd : a.restoreRequestedDays = some d)
    (hv : objMD.versionId ≠ some "") :
    (∃ arch : ArchiveParams,
      (overwritingVersioning now objMD params).1.archive = some arch ∧
      arch.restoreCompletedAt = now ∧
      arch.restoreWillExpireAt = some (now + d * 86400000)) ∧
    (overwritingVersioning now objMD params).2 =
      { versionId := objMD.versionId, isNull := objMD.isNull,
        nullVersionId := objMD.nullVersionId } := by
  unfold overwritingVersioning
  refine ⟨⟨_, rfl, rfl, ?_⟩, ?_⟩
  · simp [ha, hd, oneDay]
  · cases hvv : objMD.versionId with
    | none => simp [jsTruthy]
    | some s =>
        have hs : s ≠ "" := by
          intro hemp
          exact hv (by rw [hvv, hemp])
        simp [jsTruthy, hs]

def mdC8 : ObjMD :=
  { versionId := some "V8", isNull := true, nullVersionId := some "N8",
    archive := some { restoreRequestedDays := some 3 } }

/-- Witness for claim C8 at a concrete archived record, three requested
days, time 1000. -/
theorem claim_C8_witness :
    (mdC8.archive = some { restoreRequestedDays := some 3 } ∧
     mdC8.versionId ≠ some "") ∧
    (∃ arch : ArchiveParams,
      (overwritingVersioning 1000 mdC8 {}).1.archive = some arch ∧
      arch.restoreCompletedAt = 1000 ∧
      arch.restoreWillExpireAt = some (1000 + 3 * 86400000)) ∧
    (overwritingVersioning 1000 mdC8 {}).2 =
      { versionId := mdC8.versionId, isNull := mdC8.isNull,
        nullVersionId := mdC8.nullVersionId } :=
  ⟨⟨rfl, by simp [mdC8]⟩,
   claim_C8 1000 mdC8 {} _ 3 rfl rfl (by simp [mdC8])⟩

/-- Claim C4: when the decision bundle carries storeOptions and the
protective store of the retiring null version fails, the failure is
returned as is, and since the statement holds for every oracle with that
put outcome, the deletion step has no influence on the result (it is
never attempted). -/
theorem claim_C4 (env : MDEnv) (status : String) (objMD : Option ObjMD)
    (so : StoreOptions) (e : ApiError)
    (hs : (processVersioningState (getMasterState objMD) status).storeOptions
            = some so)
    (hp : env.putResult = some e) :
    versioningPreprocessing env (some status) objMD = .error e := by
  unfold versioningPreprocessing
  simp only [hs, hp]

def mdC4 : ObjMD := {}

def envC4 : MDEnv := { putResult := some (ApiError.OtherMD 7) }

/-- Witness for claim C4 at a concrete unversioned master under Enabled
with a failing put. -/
theorem claim_C4_witness :
    (processVersioningState (getMasterState (some mdC4)) "Enabled").storeOptions =
      some { versionId := some nonVersionedObjId, isNull := some true } ∧
    envC4.putResult = some (ApiError.OtherMD 7) ∧
    versioningPreprocessing envC4 (some "Enabled") (some mdC4) =
      .error (ApiError.OtherMD 7) :=
  ⟨rfl, rfl, claim_C4 envC4 "Enabled" (some mdC4) _ _ rfl rfl⟩

/-- Claim C3: when the decision bundle carries delOptions and the
null-version cleanup fails, a NoSuchKey failure is absorbed (the call
succeeds with the decided options unchanged, no data reclaimed by the
cleanup) while any other failure is escalated as InternalError and the
operation aborts. -/
theorem claim_C3 (env : MDEnv) (status : String) (objMD : Option ObjMD)
    (d : DelOptions) (e : ApiError)
    (hd : (processVersioningState (getMasterState objMD) status).delOptions
            = some d)
    (he : deleteNullVersionMD env.getResult env.delResult d
            (getMasterState objMD) = .error e) :
    versioningPreprocessing env (some status) objMD =
      (if e.isNoSuchKey then
         .ok (processVersioningState (getMasterState objMD) status).options
       else .error ApiError.InternalError) := by
  have hs : (processVersioningState (getMasterState objMD) status).storeOptions
      = none := by
    rcases pvs_store_del_exclusive (getMasterState objMD) status with h | h
    · exact h
    · rw [hd] at h
      cases h
  unfold versioningPreprocessing
  simp only [hs, hd, he]

def mdC3 : ObjMD :=
  { versionId := some "V3", isNull := false, nullVersionId := some "N3" }

def envC3 : MDEnv := { delResult := some ApiError.NoSuchKey }

def delC3 : DelOptions := { versionId := some "N3" }

/-- Witness for claim C3 at a concrete versioned master referencing a null
version, under Suspended, with the delete failing NoSuchKey. -/
theorem claim_C3_witness :
    (processVersioningState (getMasterState (some mdC3)) "Suspended").delOptions
      = some delC3 ∧
    deleteNullVersionMD envC3.getResult envC3.delResult delC3
      (getMasterState (some mdC3)) = .error ApiError.NoSuchKey ∧
    versioningPreprocessing envC3 (some "Suspended") (some mdC3) =
      .ok (processVersioningState (getMasterState (some mdC3)) "Suspended").options := by
  refine ⟨rfl, rfl, ?_⟩
  have h := claim_C3 envC3 "Suspended" (some mdC3) delC3 ApiError.NoSuchKey
    rfl rfl
  simpa [ApiError.isNoSuchKey] using h

/-- Claim C5: when the decision bundle carries delOptions and the
null-version cleanup succeeds, the reclaimed locations become the returned
dataToDelete and no previously decided dataToDelete is lost (whenever one
was present, the reclaimed locations coincide with it); a target record
without location yields no data and no error; and when the delete targets
the master version id, the known master objLocation is reused whatever the
read outcome is (no metadata read). -/
theorem claim_C5 (env : MDEnv) (status : String) (objMD : Option ObjMD)
    (d : DelOptions) (nullData : Option (List Loc))
    (hd : (processVersioningState (getMasterState objMD) status).delOptions
            = some d)
    (hok : deleteNullVersionMD env.getResult env.delResult d
             (getMasterState objMD) = .ok nullData) :
    versioningPreprocessing env (some status) objMD =
      .ok { (processVersioningState (getMasterState objMD) status).options
              with dataToDelete := nullData } ∧
    ((processVersioningState (getMasterState objMD) status).options.dataToDelete
        = none ∨
      nullData =
        (processVersioningState (getMasterState objMD) status).options.dataToDelete) ∧
    (d.versionId = (getMasterState objMD).versionId →
      nullData = (getMasterState objMD).objLocation) ∧
    (∀ vmd : VersionMD, d.versionId ≠ (getMasterState objMD).versionId →
      env.getResult = .ok vmd → vmd.location = none → nullData = none) := by
  have hs : (processVersioningState (getMasterState objMD) status).storeOptions
      = none := by
    rcases pvs_store_del_exclusive (getMasterState objMD) status with h | h
    · exact h
    · rw [hd] at h
      cases h
  have hshortcut : d.versionId = (getMasterState objMD).versionId →
      nullData = (getMasterState objMD).objLocation := by
    intro hv
    unfold deleteNullVersionMD getNullVersionsToDelete at hok
    rw [if_pos hv] at hok
    cases hdel : env.delResult with
    | some e => simp [hdel] at hok
    | none =>
        simp [hdel] at hok
        exact hok.symm
  have hnoloc : ∀ vmd : VersionMD,
      d.versionId ≠ (getMasterState objMD).versionId →
      env.getResult = .ok vmd → vmd.location = none → nullData = none := by
    intro vmd hne hg hl
    unfold deleteNullVersionMD getNullVersionsToDelete at hok
    rw [if_neg hne, hg] at hok
    cases hdel : env.delResult with
    | some e => simp [hdel, hl] at hok
    | none =>
        simp [hdel, hl] at hok
        exact hok.symm
  refine ⟨?_, ?_, hshortcut, hnoloc⟩
  · unfold versioningPreprocessing
    simp only [hs, hd, hok]
  · rcases pvs_dataToDelete_of_delOptions (getMasterState objMD) status d hd
      with h | ⟨hdd, hvv⟩
    · exact Or.inl h
    · exact Or.inr (by rw [hdd]; exact hshortcut hvv)

def mdC5 : ObjMD :=
  { versionId := some "V5", isNull := false, nullVersionId := some "N5",
    location := some (JsLocation.arr [⟨5⟩]) }

def envC5 : MDEnv :=
  { getResult := Except.ok { location := some (JsLocation.single ⟨9⟩) } }

def delC5 : DelOptions := { versionId := some "N5" }

/-- Witness for claim C5 at a concrete versioned master referencing a null
version whose record holds one location, with the cleanup succeeding. -/
theorem claim_C5_witness :
    (processVersioningState (getMasterState (some mdC5)) "Suspended").delOptions
      = some delC5 ∧
    deleteNullVersionMD envC5.getResult envC5.delResult delC5
      (getMasterState (some mdC5)) = .ok (some [⟨9⟩]) ∧
    versioningPreprocessing envC5 (some "Suspended") (some mdC5) =
      .ok { versionId := some "", isNull := some true,
            dataToDelete := some [⟨9⟩] } := by
  refine ⟨rfl, rfl, ?_⟩
  have h := (claim_C5 envC5 "Suspended" (some mdC5) delC5 (some [⟨9⟩])
    rfl rfl).1
  exact h.trans (congrArg Except.ok (by decide))
